import Mathlib

/-!
Verification of `taskcat/_cfn_logutils.py` (class `CfnLogTools`) against its
specification.

Shallow embedding conventions:
* A raw CloudFormation event record (a Python dict coming from the
  `describe_stack_events` API) is a structure; the optional
  `ResourceStatusReason` key is an `Option String` (`none` = key absent).
* A normalized event (the dict built by `get_cfnlogs`) likewise carries its
  `ResourceStatusReason` as `Option String` so that the membership test
  `"ResourceStatusReason" in cfnlogs[0]` performed by `write_logs` can be
  modelled faithfully (`none` = key absent).
* The boto3 CloudFormation client is modelled by the *tape* of responses the
  service returns to the successive `describe_stack_events` calls: a
  `List (Except ClientError DescribeStackEventsResponse)`.  The code always
  passes the `NextToken` of the previous response, so the sequence of
  responses determines the interaction completely.
* Side effects (file appends, console logging, recursive invocations) are
  modelled as traces threaded through a `WState` record: `write_logs` opens
  the log file exactly once per invocation and appends one contiguous piece
  of text, which we record as one `Block` (the data interpolated into the
  fixed header/reason/events/footer template); each `LOG.xxx` call appends
  one `LogEntry`; each `self.write_logs(physical_id, logpath)` call site
  appends one `(physical_id, logpath)` pair to the `calls` trace.
* External collaborators (`CommonTools(...).parse_stack_info`,
  `CfnResourceTools(...).get_resources`, `textwrap.fill(_, 85)`,
  `tabulate.tabulate`, `datetime.datetime.now().strftime(...)`) and the
  already-fetched raw event lists are supplied by an environment `Env`.
* Python recursion depth is modelled with an explicit `fuel` parameter;
  `fuel` only bounds the modelled recursion depth (the nested-stack graph is
  a finite tree in practice, so some sufficient fuel always exists).
-/

/-- A raw stack event record, as returned by the CloudFormation
`describe_stack_events` API.  The fields are exactly those the module reads;
`ResourceStatusReason` is optional in the API response (`none` = absent). -/
structure RawEvent where
  Timestamp : String
  ResourceStatus : String
  ResourceType : String
  LogicalResourceId : String
  ResourceStatusReason : Option String
deriving DecidableEq, Repr

/-- One page of a `describe_stack_events` response: the event list and the
optional continuation token. -/
structure DescribeStackEventsResponse where
  StackEvents : List RawEvent
  NextToken : Option String
deriving DecidableEq, Repr

/-- A `botocore.exceptions.ClientError`; only its printed form matters here. -/
structure ClientError where
  message : String
deriving DecidableEq, Repr

/-- Console log severities used by the module (`LOG.info`, `LOG.warning`,
`LOG.error`). -/
inductive LogLevel
  | info
  | warning
  | error
deriving DecidableEq, Repr

/-- The `extra={"nametag": ...}` markers the module attaches to some log
lines (`PrintMsg.PASS`, `PrintMsg.NAMETAG`). -/
inductive Nametag
  | pass
  | nametag
deriving DecidableEq, Repr

/-- One console log line: severity, optional nametag marker, message text. -/
structure LogEntry where
  level : LogLevel
  tag : Option Nametag
  msg : String
deriving DecidableEq, Repr

/-- The error line `get_cfn_stack_events` logs when `describe_stack_events`
raises a `ClientError` (the `\x08` is the `\b` of the Python f-string). -/
def fetch_error_log (stackname region : String) (e : ClientError) : LogEntry :=
  { level := LogLevel.error
    tag := none
    msg := "Error trying to get the events for stack [" ++ stackname ++
      "] in region [" ++ region ++ "]\x08 " ++ e.message }

/-- Result of `get_cfn_stack_events`: the accumulated `stack_events` list,
the number of `describe_stack_events` requests issued, and the console lines
logged.  The function always returns (errors are caught, never propagated),
which is why the result is a plain structure and not an `Except`. -/
structure FetchResult where
  stack_events : List RawEvent
  requests : Nat
  logs : List LogEntry
deriving DecidableEq, Repr

/-- `CfnLogTools.get_cfn_stack_events`, with the boto3 client replaced by the
tape of responses the service returns to the successive
`describe_stack_events` calls.  The loop issues a first request, then keeps
requesting while the previous response contains a `NextToken`; a
`ClientError` at any point is logged and the events accumulated so far are
returned. -/
def get_cfn_stack_events (stackname region : String) :
    List (Except ClientError DescribeStackEventsResponse) → FetchResult
  | [] => { stack_events := [], requests := 0, logs := [] }
  | Except.error e :: _ =>
      { stack_events := []
        requests := 1
        logs := [fetch_error_log stackname region e] }
  | Except.ok response :: rest =>
      match response.NextToken with
      | none => { stack_events := response.StackEvents, requests := 1, logs := [] }
      | some _ =>
          let r := get_cfn_stack_events stackname region rest
          { stack_events := response.StackEvents ++ r.stack_events
            requests := 1 + r.requests
            logs := r.logs }

/-- A normalized event: the `event_details` dict built by `get_cfnlogs`.
`ResourceStatusReason` is `Option String` so that key absence is
representable (`get_cfnlogs` in fact always populates it, which is exactly
what claim C8 is about). -/
structure EventDetails where
  TimeStamp : String
  ResourceStatus : String
  ResourceType : String
  LogicalResourceId : String
  ResourceStatusReason : Option String
deriving DecidableEq, Repr

/-- The per-event projection performed by the loop body of
`CfnLogTools.get_cfnlogs`: copy the four mandatory fields and default a
missing `ResourceStatusReason` to the empty string. -/
def event_details (event : RawEvent) : EventDetails :=
  { TimeStamp := event.Timestamp
    ResourceStatus := event.ResourceStatus
    ResourceType := event.ResourceType
    LogicalResourceId := event.LogicalResourceId
    ResourceStatusReason :=
      match event.ResourceStatusReason with
      | some reason => some reason
      | none => some "" }

/-- The `events` accumulation loop of `CfnLogTools.get_cfnlogs`: one
normalized record appended per raw record, in order. -/
def normalize_events : List RawEvent → List EventDetails
  | [] => []
  | event :: rest => event_details event :: normalize_events rest

/-- The `{stack_name, region}` pair produced by
`CommonTools(stack_id).parse_stack_info()`. -/
structure StackInfo where
  stack_name : String
  region : String
deriving DecidableEq, Repr

/-- One entry of the list returned by
`CfnResourceTools(...).get_resources(stackname, region, include_stacks=True)`;
the module reads only `resourceType` and `physicalId`. -/
structure Resource where
  resourceType : String
  physicalId : String
deriving DecidableEq, Repr

/-- The external collaborators `write_logs`/`createcfnlogs` consume, plus the
already-fetched raw event lists.  `raw_events n r` stands for the list
`get_cfn_stack_events(n, r)` returns for stack `n` in region `r`;
`fill85 s` stands for `textwrap.fill(s, 85)`; `tab` for
`tabulate.tabulate(cfnlogs, headers="keys")`; `now` for
`datetime.datetime.now().strftime("%A, %d. %B %Y %I:%M%p")`. -/
structure Env where
  parse_stack_info : String → StackInfo
  raw_events : String → String → List RawEvent
  get_resources : String → String → List Resource
  fill85 : String → String
  tab : List EventDetails → String
  now : String

/-- `CfnLogTools.get_cfnlogs` for a stack, minus its `LOG.info` line (which
the callers of this definition record in their console trace): fetch the raw
events and normalize them. -/
def get_cfnlogs (env : Env) (stackname region : String) : List EventDetails :=
  normalize_events (env.raw_events stackname region)

/-- The data interpolated into the fixed text template `write_logs` appends
to the log file inside its single `with open(logpath, "a")` block: region and
stack name (header), the wrapped outcome reason, and the event table.  One
`Block` is one contiguous appended piece of text. -/
structure Block where
  region : String
  stackname : String
  reason : String
  events : List EventDetails
deriving DecidableEq, Repr

/-- The 77-character dash ruler of the file template. -/
def dash_rule : String := String.mk (List.replicate 77 '-')

/-- The 77-character star ruler of the file template. -/
def star_rule : String := String.mk (List.replicate 77 '*')

/-- The full text `write_logs` appends for one `Block` (for documentation of
the template; the claims are about the interpolated data, which `Block`
records). -/
def block_text (env : Env) (b : Block) : String :=
  dash_rule ++ "\n" ++
  "Region: " ++ b.region ++ "\n" ++
  "StackName: " ++ b.stackname ++ "\n" ++
  star_rule ++ "\n" ++
  "ResourceStatusReason:  \n" ++
  env.fill85 b.reason ++ "\n" ++
  star_rule ++ "\n" ++
  star_rule ++ "\n" ++
  "Events:  \n" ++
  env.tab b.events ++
  "\n" ++ star_rule ++ "\n" ++
  dash_rule ++ "\n" ++
  "Tested on: " ++ env.now ++ "\n" ++
  dash_rule ++ "\n\n"

/-- The observable effects of `write_logs`/`createcfnlogs`: the blocks
appended to the log file, the console lines logged, and the
`write_logs(stack_id, logpath)` invocations performed (recorded at each call
site, in order). -/
structure WState where
  file : List Block
  console : List LogEntry
  calls : List (String × String)
deriving DecidableEq, Repr

/-- Append one console line. -/
def push_console (st : WState) (entry : LogEntry) : WState :=
  { st with console := st.console ++ [entry] }

/-- Append one block to the log file. -/
def push_block (st : WState) (b : Block) : WState :=
  { st with file := st.file ++ [b] }

/-- Record one `write_logs(stack_id, logpath)` call. -/
def push_call (st : WState) (stack_id logpath : String) : WState :=
  { st with calls := st.calls ++ [(stack_id, logpath)] }

/-- The `LOG.info` line emitted at the top of `get_cfnlogs`. -/
def collecting_log (stackname : String) : LogEntry :=
  { level := LogLevel.info
    tag := none
    msg := "Collecting logs for " ++ stackname ++ "\"\n" }

/-- The `LOG.error` line `write_logs` emits when the event list is empty. -/
def no_events_log : LogEntry :=
  { level := LogLevel.error
    tag := none
    msg := "No event logs found. Something went wrong at describe event call.\n" }

/-- The `LOG.warning` line emitted before the file is written. -/
def generating_reports_log : LogEntry :=
  { level := LogLevel.warning
    tag := some Nametag.nametag
    msg := "|GENERATING REPORTS" }

/-- The outcome reason `write_logs` computes from the first normalized event:
`"Stack launch was successful"` for status `CREATE_COMPLETE`, otherwise the
event's `ResourceStatusReason` when the key is present, else `"Unknown"`. -/
def outcome_reason (first : EventDetails) : String :=
  if first.ResourceStatus ≠ "CREATE_COMPLETE" then
    match first.ResourceStatusReason with
    | some reason => reason
    | none => "Unknown"
  else "Stack launch was successful"

/-- The 90-character dash ruler of the console message. -/
def msg_dash_rule : String := String.mk (List.replicate 90 '-')

/-- The 90-character equals ruler of the console message. -/
def msg_eq_rule : String := String.mk (List.replicate 90 '=')

/-- The console summary message `msg` built by `write_logs`. -/
def stack_msg (env : Env) (stackname region logpath reason : String) : String :=
  "StackName: " ++ stackname ++ " \n" ++
  "\t |Region: " ++ region ++ "\n" ++
  "\t |Logging to: " ++ logpath ++ "\n" ++
  "\t |Tested on: " ++ env.now ++ "\n" ++
  msg_dash_rule ++ "\n" ++
  "ResourceStatusReason: \n" ++
  env.fill85 reason ++ "\n" ++
  msg_eq_rule ++ "\n"

/-- The console line `write_logs` emits for its summary: `LOG.info` with the
`PASS` nametag when the reason is `"Stack launch was successful"`, else
`LOG.error`. -/
def summary_log (env : Env) (stackname region logpath reason : String) : LogEntry :=
  if reason = "Stack launch was successful" then
    { level := LogLevel.info
      tag := some Nametag.pass
      msg := stack_msg env stackname region logpath reason }
  else
    { level := LogLevel.error
      tag := none
      msg := stack_msg env stackname region logpath reason }

/-- `CfnLogTools.write_logs`: resolve the stack name and region, fetch and
normalize the events; on an empty list log an error and stop; otherwise log
the summary, append one block to the file, list the stack's resources and
recurse (recording each call) on every resource of type
`AWS::CloudFormation::Stack`.  `fuel` bounds the modelled recursion depth. -/
def write_logs (env : Env) (fuel : Nat) (stack_id logpath : String) (st : WState) : WState :=
  match fuel with
  | 0 => st
  | Nat.succ fuel =>
    let stackinfo := env.parse_stack_info stack_id
    let stackname := stackinfo.stack_name
    let region := stackinfo.region
    let st := push_console st (collecting_log stackname)
    let cfnlogs := get_cfnlogs env stackname region
    match cfnlogs with
    | [] => push_console st no_events_log
    | first :: _ =>
      let reason := outcome_reason first
      let st := push_console st (summary_log env stackname region logpath reason)
      let st := push_console st generating_reports_log
      let st := push_block st { region := region, stackname := stackname,
                                reason := reason, events := cfnlogs }
      let resources := env.get_resources stackname region
      resources.foldl
        (fun s r =>
          if r.resourceType = "AWS::CloudFormation::Stack" then
            write_logs env fuel r.physicalId logpath (push_call s r.physicalId logpath)
          else s)
        st

/-- The output path `createcfnlogs` builds for one stack:
`"{}/{}-{}-{}{}".format(logpath, stackname, region, "cfnlogs", ".txt")`. -/
def test_logpath (logpath stackname region : String) : String :=
  logpath ++ "/" ++ stackname ++ "-" ++ region ++ "-" ++ "cfnlogs" ++ ".txt"

/-- One entry of `test.get_test_stacks()`: a dict whose `StackId` key the
module reads. -/
structure StackRecord where
  StackId : String
deriving DecidableEq, Repr

/-- One `TestData` object, exposing its list of launched stacks. -/
structure TestData where
  test_stacks : List StackRecord
deriving DecidableEq, Repr

/-- `CfnLogTools.createcfnlogs`: for every test and every stack of that test,
parse the stack id into name and region, build the per-stack output path and
invoke (recording the call) `write_logs` on the stack id and that path. -/
def createcfnlogs (env : Env) (fuel : Nat) (testdata_list : List TestData)
    (logpath : String) (st : WState) : WState :=
  let st := push_console st
    { level := LogLevel.info, tag := none, msg := "Collecting CloudFormation Logs" }
  testdata_list.foldl
    (fun s test =>
      test.test_stacks.foldl
        (fun s2 stack =>
          let stackinfo := env.parse_stack_info stack.StackId
          let stackname := stackinfo.stack_name
          let region := stackinfo.region
          let path := test_logpath logpath stackname region
          write_logs env fuel stack.StackId path (push_call s2 stack.StackId path))
        s)
    st

/-- Componentwise concatenation of two effect states. -/
def WState.append (s t : WState) : WState :=
  ⟨s.file ++ t.file, s.console ++ t.console, s.calls ++ t.calls⟩

/-- The empty effect state. -/
def WState.nil : WState := ⟨[], [], []⟩

/-- Concatenation of a list of effect deltas. -/
def concat_states : List WState → WState
  | [] => WState.nil
  | s :: t => s.append (concat_states t)

/-- The report blocks in depth-first discovery order, as the specification
describes them: one block for the stack itself (when it has events, with the
outcome reason of its first event), followed by the blocks of each
nested-stack resource's subtree, in resource order.  This is the spec-side
description `write_logs` is proved to refine. -/
def dfs_report_blocks (env : Env) : Nat → String → List Block
  | 0, _ => []
  | fuel + 1, stack_id =>
    let stackinfo := env.parse_stack_info stack_id
    match get_cfnlogs env stackinfo.stack_name stackinfo.region with
    | [] => []
    | first :: rest =>
      { region := stackinfo.region
        stackname := stackinfo.stack_name
        reason := outcome_reason first
        events := first :: rest } ::
      ((env.get_resources stackinfo.stack_name stackinfo.region).filter
        (fun r => r.resourceType = "AWS::CloudFormation::Stack")).flatMap
        (fun r => dfs_report_blocks env fuel r.physicalId)

/-- Sample raw event: a successful stack-level `CREATE_COMPLETE` with no
status reason. -/
def raw_cc : RawEvent :=
  ⟨"2019-01-01T00:00:00Z", "CREATE_COMPLETE", "AWS::CloudFormation::Stack", "parent", none⟩

/-- Sample raw event: a failure carrying a status reason. -/
def raw_failed : RawEvent :=
  ⟨"2019-01-01T00:01:00Z", "CREATE_FAILED", "AWS::S3::Bucket", "bucket", some "Resource X failed"⟩

/-- Sample raw event: a failure whose record has no status-reason key. -/
def raw_noreason : RawEvent :=
  ⟨"2019-01-01T00:02:00Z", "CREATE_FAILED", "AWS::S3::Bucket", "bucket", none⟩

/-- A concrete environment used to evaluate the theorems: stack `parent`
succeeded and owns two nested-stack resources (`child`, `child2`) and one
plain bucket; `child` failed with a reason; `noreason` failed without one;
every other stack (including `child2`) has no events. -/
def sampleEnv : Env :=
  { parse_stack_info := fun sid => ⟨sid, "us-east-1"⟩
    raw_events := fun n _ =>
      if n = "parent" then [raw_cc]
      else if n = "child" then [raw_failed]
      else if n = "noreason" then [raw_noreason]
      else []
    get_resources := fun n _ =>
      if n = "parent" then
        [⟨"AWS::CloudFormation::Stack", "child"⟩,
         ⟨"AWS::S3::Bucket", "bucket"⟩,
         ⟨"AWS::CloudFormation::Stack", "child2"⟩]
      else []
    fill85 := fun s => s
    tab := fun _ => ""
    now := "Tuesday, 01. January 2019 12:00AM" }

/-- Sample response page carrying a continuation token. -/
def pg1 : DescribeStackEventsResponse := ⟨[raw_cc], some "tok1"⟩

/-- Sample final response page without a continuation token. -/
def pg2 : DescribeStackEventsResponse := ⟨[raw_failed], none⟩

theorem WState.append_nil (s : WState) : s.append WState.nil = s := by
  simp [WState.append, WState.nil]

theorem WState.nil_append (s : WState) : WState.nil.append s = s := by
  simp [WState.append, WState.nil]

theorem WState.append_assoc (s t u : WState) :
    (s.append t).append u = s.append (t.append u) := by
  simp [WState.append]

/-- A fold whose step only appends a per-element delta factors through the
concatenation of the deltas. -/
theorem foldl_frame {α : Type} (step : WState → α → WState) (delta : α → WState)
    (h : ∀ s a, step s a = s.append (delta a)) :
    ∀ (l : List α) (st : WState),
      l.foldl step st = st.append (concat_states (l.map delta)) := by
  intro l
  induction l with
  | nil => intro st; simp [concat_states, WState.append_nil]
  | cons a t ih =>
    intro st
    simp only [List.foldl_cons, List.map_cons, concat_states]
    rw [h, ih, WState.append_assoc]

theorem push_console_eq (st : WState) (e : LogEntry) :
    push_console st e = st.append ⟨[], [e], []⟩ := by
  simp [push_console, WState.append]

theorem push_block_eq (st : WState) (b : Block) :
    push_block st b = st.append ⟨[b], [], []⟩ := by
  simp [push_block, WState.append]

theorem push_call_eq (st : WState) (sid lp : String) :
    push_call st sid lp = st.append ⟨[], [], [(sid, lp)]⟩ := by
  simp [push_call, WState.append]

theorem write_logs_zero (env : Env) (sid lp : String) (st : WState) :
    write_logs env 0 sid lp st = st := rfl

/-- Unfolding of `write_logs` when the stack has no events: the two console
lines are logged and nothing else happens. -/
theorem write_logs_succ_empty (env : Env) (fuel : Nat) (sid lp : String) (st : WState)
    (h : get_cfnlogs env (env.parse_stack_info sid).stack_name
      (env.parse_stack_info sid).region = []) :
    write_logs env (fuel + 1) sid lp st =
      push_console
        (push_console st (collecting_log (env.parse_stack_info sid).stack_name))
        no_events_log := by
  conv_lhs => rw [write_logs]
  simp only [h]

/-- Unfolding of `write_logs` when the stack has events: console lines, one
appended block, then the resource loop. -/
theorem write_logs_succ_cons (env : Env) (fuel : Nat) (sid lp : String) (st : WState)
    (first : EventDetails) (rest : List EventDetails)
    (h : get_cfnlogs env (env.parse_stack_info sid).stack_name
      (env.parse_stack_info sid).region = first :: rest) :
    write_logs env (fuel + 1) sid lp st =
      (env.get_resources (env.parse_stack_info sid).stack_name
          (env.parse_stack_info sid).region).foldl
        (fun s r =>
          if r.resourceType = "AWS::CloudFormation::Stack" then
            write_logs env fuel r.physicalId lp (push_call s r.physicalId lp)
          else s)
        (push_block
          (push_console
            (push_console
              (push_console st (collecting_log (env.parse_stack_info sid).stack_name))
              (summary_log env (env.parse_stack_info sid).stack_name
                (env.parse_stack_info sid).region lp (outcome_reason first)))
            generating_reports_log)
          { region := (env.parse_stack_info sid).region
            stackname := (env.parse_stack_info sid).stack_name
            reason := outcome_reason first
            events := first :: rest }) := by
  conv_lhs => rw [write_logs]
  simp only [h]

/-- `write_logs` only appends to its state: the result is the input state
followed by the effects the call produces from an empty state. -/
theorem write_logs_frame (env : Env) :
    ∀ (fuel : Nat) (sid lp : String) (st : WState),
      write_logs env fuel sid lp st =
        st.append (write_logs env fuel sid lp WState.nil) := by
  intro fuel
  induction fuel with
  | zero =>
    intro sid lp st
    simp [write_logs_zero, WState.append_nil]
  | succ fuel ih =>
    intro sid lp st
    cases h : get_cfnlogs env (env.parse_stack_info sid).stack_name
        (env.parse_stack_info sid).region with
    | nil =>
      rw [write_logs_succ_empty env fuel sid lp st h,
        write_logs_succ_empty env fuel sid lp WState.nil h]
      simp [push_console, WState.append, WState.nil]
    | cons first rest =>
      rw [write_logs_succ_cons env fuel sid lp st first rest h,
        write_logs_succ_cons env fuel sid lp WState.nil first rest h]
      have hstep : ∀ (s : WState) (r : Resource),
          (if r.resourceType = "AWS::CloudFormation::Stack" then
            write_logs env fuel r.physicalId lp (push_call s r.physicalId lp)
          else s) =
          s.append (if r.resourceType = "AWS::CloudFormation::Stack" then
            (WState.mk [] [] [(r.physicalId, lp)]).append
              (write_logs env fuel r.physicalId lp WState.nil)
          else WState.nil) := by
        intro s r
        by_cases hr : r.resourceType = "AWS::CloudFormation::Stack"
        · simp only [hr, if_pos]
          rw [ih, push_call_eq, WState.append_assoc]
        · simp [hr, WState.append_nil]
      rw [foldl_frame _ _ hstep, foldl_frame _ _ hstep]
      rw [push_block_eq, push_block_eq, push_console_eq, push_console_eq,
        push_console_eq, push_console_eq, push_console_eq, push_console_eq]
      simp only [WState.nil_append, WState.append_assoc]

theorem append_file (s t : WState) : (s.append t).file = s.file ++ t.file := rfl

theorem append_calls (s t : WState) : (s.append t).calls = s.calls ++ t.calls := rfl

theorem concat_delta_file (env : Env) (fuel : Nat) (lp : String) :
    ∀ resources : List Resource,
      (concat_states (resources.map fun r =>
        if r.resourceType = "AWS::CloudFormation::Stack" then
          (WState.mk [] [] [(r.physicalId, lp)]).append
            (write_logs env fuel r.physicalId lp WState.nil)
        else WState.nil)).file =
      (resources.filter fun r =>
        r.resourceType = "AWS::CloudFormation::Stack").flatMap
        (fun r => (write_logs env fuel r.physicalId lp WState.nil).file) := by
  intro resources
  induction resources with
  | nil => rfl
  | cons a t ih =>
    simp only [List.map_cons, concat_states, append_file]
    rw [ih]
    by_cases ha : a.resourceType = "AWS::CloudFormation::Stack"
    · simp [ha, WState.append]
    · simp [ha, WState.nil]

theorem concat_delta_calls (env : Env) (fuel : Nat) (lp : String) :
    ∀ resources : List Resource,
      (concat_states (resources.map fun r =>
        if r.resourceType = "AWS::CloudFormation::Stack" then
          (WState.mk [] [] [(r.physicalId, lp)]).append
            (write_logs env fuel r.physicalId lp WState.nil)
        else WState.nil)).calls =
      (resources.filter fun r =>
        r.resourceType = "AWS::CloudFormation::Stack").flatMap
        (fun r => (r.physicalId, lp) :: (write_logs env fuel r.physicalId lp WState.nil).calls) := by
  intro resources
  induction resources with
  | nil => rfl
  | cons a t ih =>
    simp only [List.map_cons, concat_states, append_calls]
    rw [ih]
    by_cases ha : a.resourceType = "AWS::CloudFormation::Stack"
    · simp [ha, WState.append]
    · simp [ha, WState.nil]

/-- The blocks `write_logs` appends to the file are exactly the depth-first
report blocks. -/
theorem write_logs_file (env : Env) :
    ∀ (fuel : Nat) (sid lp : String) (st : WState),
      (write_logs env fuel sid lp st).file = st.file ++ dfs_report_blocks env fuel sid := by
  intro fuel
  induction fuel with
  | zero =>
    intro sid lp st
    simp [write_logs_zero, dfs_report_blocks]
  | succ fuel ih =>
    intro sid lp st
    cases h : get_cfnlogs env (env.parse_stack_info sid).stack_name
        (env.parse_stack_info sid).region with
    | nil =>
      rw [write_logs_succ_empty env fuel sid lp st h]
      simp only [dfs_report_blocks, h]
      simp [push_console]
    | cons first rest =>
      rw [write_logs_succ_cons env fuel sid lp st first rest h]
      have hstep : ∀ (s : WState) (r : Resource),
          (if r.resourceType = "AWS::CloudFormation::Stack" then
            write_logs env fuel r.physicalId lp (push_call s r.physicalId lp)
          else s) =
          s.append (if r.resourceType = "AWS::CloudFormation::Stack" then
            (WState.mk [] [] [(r.physicalId, lp)]).append
              (write_logs env fuel r.physicalId lp WState.nil)
          else WState.nil) := by
        intro s r
        by_cases hr : r.resourceType = "AWS::CloudFormation::Stack"
        · simp only [hr, if_pos]
          rw [write_logs_frame env fuel, push_call_eq, WState.append_assoc]
        · simp [hr, WState.append_nil]
      rw [foldl_frame _ _ hstep, append_file, concat_delta_file]
      simp only [ih]
      simp only [dfs_report_blocks, h]
      simp [push_block, push_console, WState.nil]

/-- At recursion depth 1 the recorded calls are exactly the immediate
recursive invocations of this one `write_logs` call: one per nested-stack
resource, with the same log path, none for any other resource. -/
theorem write_logs_one_calls (env : Env) (sid lp : String) (st : WState)
    (first : EventDetails) (rest : List EventDetails)
    (h : get_cfnlogs env (env.parse_stack_info sid).stack_name
      (env.parse_stack_info sid).region = first :: rest) :
    (write_logs env 1 sid lp st).calls =
      st.calls ++
        ((env.get_resources (env.parse_stack_info sid).stack_name
            (env.parse_stack_info sid).region).filter
          (fun r => r.resourceType = "AWS::CloudFormation::Stack")).map
          (fun r => (r.physicalId, lp)) := by
  rw [show (1 : Nat) = 0 + 1 from rfl, write_logs_succ_cons env 0 sid lp st first rest h]
  have hstep : ∀ (s : WState) (r : Resource),
      (if r.resourceType = "AWS::CloudFormation::Stack" then
        write_logs env 0 r.physicalId lp (push_call s r.physicalId lp)
      else s) =
      s.append (if r.resourceType = "AWS::CloudFormation::Stack" then
        (WState.mk [] [] [(r.physicalId, lp)]).append
          (write_logs env 0 r.physicalId lp WState.nil)
      else WState.nil) := by
    intro s r
    by_cases hr : r.resourceType = "AWS::CloudFormation::Stack"
    · simp only [hr, if_pos]
      rw [write_logs_frame env 0, push_call_eq, WState.append_assoc]
    · simp [hr, WState.append_nil]
  rw [foldl_frame _ _ hstep, append_calls, concat_delta_calls]
  simp only [write_logs_zero]
  have hsing : ∀ (l : List Resource) (f : Resource → String × String),
      (l.map (fun a => [f a])).flatten = l.map f := by
    intro l f
    induction l with
    | nil => rfl
    | cons a t ih => simp [ih]
  simp [push_block, push_console, WState.nil, List.flatMap, hsing]

/-- Pagination: a run of pages each carrying a `NextToken`, then one final
page without, followed by anything: the loop returns the concatenation of all
the pages' events, issues exactly one request per page, touches nothing past
the token-free page and logs nothing. -/
theorem get_cfn_stack_events_pages (n r : String)
    (latest : DescribeStackEventsResponse)
    (hlast : latest.NextToken = none)
    (extra : List (Except ClientError DescribeStackEventsResponse)) :
    ∀ ps : List DescribeStackEventsResponse,
      (∀ p ∈ ps, p.NextToken ≠ none) →
      get_cfn_stack_events n r ((ps ++ [latest]).map Except.ok ++ extra) =
        { stack_events := ((ps ++ [latest]).map
            DescribeStackEventsResponse.StackEvents).flatten
          requests := (ps ++ [latest]).length
          logs := [] } := by
  intro ps
  induction ps with
  | nil =>
    intro _
    simp only [List.nil_append, List.map_cons, List.map_nil, List.cons_append,
      List.nil_append, get_cfn_stack_events, hlast]
    simp
  | cons p t ih =>
    intro hp
    have hpt : p.NextToken ≠ none := hp p (by simp)
    cases hnt : p.NextToken with
    | none => exact absurd hnt hpt
    | some tok =>
      have := ih (fun q hq => hp q (by simp [hq]))
      simp only [List.map_append, List.map_cons, List.map_nil, List.append_assoc,
        List.singleton_append] at this
      simp only [List.cons_append, List.map_cons, get_cfn_stack_events, hnt]
      simp [this, Nat.add_comm, List.flatten_append]

/-- A run of token-carrying pages followed by a `ClientError`: the loop
returns the events accumulated so far, issues one request per page plus the
failing one, and logs exactly the fetch error line. -/
theorem get_cfn_stack_events_error (n r : String) (e : ClientError)
    (extra : List (Except ClientError DescribeStackEventsResponse)) :
    ∀ ps : List DescribeStackEventsResponse,
      (∀ p ∈ ps, p.NextToken ≠ none) →
      get_cfn_stack_events n r (ps.map Except.ok ++ (Except.error e :: extra)) =
        { stack_events := (ps.map DescribeStackEventsResponse.StackEvents).flatten
          requests := ps.length + 1
          logs := [fetch_error_log n r e] } := by
  intro ps
  induction ps with
  | nil =>
    intro _
    simp [get_cfn_stack_events]
  | cons p t ih =>
    intro hp
    have hpt : p.NextToken ≠ none := hp p (by simp)
    cases hnt : p.NextToken with
    | none => exact absurd hnt hpt
    | some tok =>
      have := ih (fun q hq => hp q (by simp [hq]))
      simp only [List.cons_append, List.map_cons, get_cfn_stack_events, hnt]
      simp [this, Nat.add_comm]

theorem foldl_flatMap_list {α β σ : Type} (g : σ → β → σ) (f : α → List β) :
    ∀ (l : List α) (init : σ),
      (l.flatMap f).foldl g init = l.foldl (fun acc a => (f a).foldl g acc) init := by
  intro l
  induction l with
  | nil => intro init; rfl
  | cons a t ih =>
    intro init
    simp only [List.flatMap_cons, List.foldl_append, List.foldl_cons, ih]

/-- `createcfnlogs` is the strictly sequential fold of the per-stack
invocation over all `(test, stack)` pairs in input order. -/
theorem createcfnlogs_eq (env : Env) (fuel : Nat) (testdata_list : List TestData)
    (logpath : String) (st : WState) :
    createcfnlogs env fuel testdata_list logpath st =
      (testdata_list.flatMap TestData.test_stacks).foldl
        (fun s stack =>
          write_logs env fuel stack.StackId
            (test_logpath logpath (env.parse_stack_info stack.StackId).stack_name
              (env.parse_stack_info stack.StackId).region)
            (push_call s stack.StackId
              (test_logpath logpath (env.parse_stack_info stack.StackId).stack_name
                (env.parse_stack_info stack.StackId).region)))
        (push_console st
          { level := LogLevel.info, tag := none, msg := "Collecting CloudFormation Logs" }) := by
  rw [createcfnlogs, foldl_flatMap_list]

theorem foldl_push_call_calls (pathf : StackRecord → String) :
    ∀ (l : List StackRecord) (s : WState),
      (l.foldl (fun s2 stack => push_call s2 stack.StackId (pathf stack)) s).calls =
        s.calls ++ l.map (fun stack => (stack.StackId, pathf stack)) := by
  intro l
  induction l with
  | nil => intro s; simp
  | cons a t ih =>
    intro s
    simp only [List.foldl_cons]
    rw [ih]
    simp [push_call]

theorem normalize_events_map (l : List RawEvent) :
    normalize_events l = l.map event_details := by
  induction l with
  | nil => rfl
  | cons a t ih => simp [normalize_events, ih]

/-- Every normalized event has its status-reason key populated. -/
theorem normalize_reason_present :
    ∀ (l : List RawEvent) (d : EventDetails), d ∈ normalize_events l →
      d.ResourceStatusReason ≠ none := by
  intro l
  induction l with
  | nil => intro d hd; cases hd
  | cons a t ih =>
    intro d hd
    simp only [normalize_events, List.mem_cons] at hd
    cases hd with
    | inl hh =>
      subst hh
      cases ha : a.ResourceStatusReason <;> simp [event_details, ha]
    | inr hh => exact ih d hh

/-- Claim C1: in `write_logs`, for every non-empty normalized event list, the
outcome reason of the block written for the stack is exactly
"Stack launch was successful" when the first event's `ResourceStatus` is
exactly "CREATE_COMPLETE"; for any other status the outcome reason equals
that first event's status reason, or "Unknown" when the status-reason key is
absent. -/
theorem claim_C1 (env : Env) (fuel : Nat) (sid lp : String) (st : WState)
    (first : EventDetails) (rest : List EventDetails)
    (h : get_cfnlogs env (env.parse_stack_info sid).stack_name
      (env.parse_stack_info sid).region = first :: rest) :
    (∃ tail, (write_logs env (fuel + 1) sid lp st).file =
      st.file ++ { region := (env.parse_stack_info sid).region
                   stackname := (env.parse_stack_info sid).stack_name
                   reason := outcome_reason first
                   events := first :: rest } :: tail) ∧
    (first.ResourceStatus = "CREATE_COMPLETE" →
      outcome_reason first = "Stack launch was successful") ∧
    (first.ResourceStatus ≠ "CREATE_COMPLETE" →
      (∀ s, first.ResourceStatusReason = some s → outcome_reason first = s) ∧
      (first.ResourceStatusReason = none → outcome_reason first = "Unknown")) := by
  refine ⟨?_, ?_, ?_⟩
  · refine ⟨((env.get_resources (env.parse_stack_info sid).stack_name
        (env.parse_stack_info sid).region).filter
        (fun r => r.resourceType = "AWS::CloudFormation::Stack")).flatMap
        (fun r => dfs_report_blocks env fuel r.physicalId), ?_⟩
    rw [write_logs_file]
    simp only [dfs_report_blocks, h]
  · intro hcc
    simp [outcome_reason, hcc]
  · intro hncc
    constructor
    · intro s hs
      simp [outcome_reason, hncc, hs]
    · intro hn
      simp [outcome_reason, hncc, hn]

/-- Witness for C1 at a concrete input: the `parent` stack's first (and only)
event is `CREATE_COMPLETE`, so the appended block's reason is exactly
"Stack launch was successful". -/
theorem claim_C1_witness :
    ∃ tail, (write_logs sampleEnv 1 "parent" "/p.txt" ⟨[], [], []⟩).file =
      { region := "us-east-1", stackname := "parent",
        reason := "Stack launch was successful",
        events := [event_details raw_cc] } :: tail := by
  have h := claim_C1 sampleEnv 0 "parent" "/p.txt" ⟨[], [], []⟩
    (event_details raw_cc) [] (by decide)
  obtain ⟨tail, htail⟩ := h.1
  have hr : outcome_reason (event_details raw_cc) = "Stack launch was successful" :=
    h.2.1 (by decide)
  refine ⟨tail, ?_⟩
  simpa [sampleEnv, hr] using htail

/-- Claim C2: for a response split across N pages, each page carrying a
continuation token except the last, `get_cfn_stack_events` returns the
concatenation of all N pages' event lists in original order and issues
exactly N requests — no further request once a response has no token (the
tape may hold anything past the token-free page; it is never consulted). -/
theorem claim_C2 (n r : String) (ps : List DescribeStackEventsResponse)
    (latest : DescribeStackEventsResponse)
    (extra : List (Except ClientError DescribeStackEventsResponse))
    (hps : ∀ p ∈ ps, p.NextToken ≠ none) (hlast : latest.NextToken = none) :
    (get_cfn_stack_events n r ((ps ++ [latest]).map Except.ok ++ extra)).stack_events =
      ((ps ++ [latest]).map DescribeStackEventsResponse.StackEvents).flatten ∧
    (get_cfn_stack_events n r ((ps ++ [latest]).map Except.ok ++ extra)).requests =
      (ps ++ [latest]).length := by
  rw [get_cfn_stack_events_pages n r latest hlast extra ps hps]
  exact ⟨rfl, rfl⟩

/-- Witness for C2 at a concrete input: two pages (the first with a token,
the second without) followed by junk on the tape yield both pages' events in
order and exactly two requests. -/
theorem claim_C2_witness :
    (get_cfn_stack_events "stk" "us-east-1"
      [Except.ok pg1, Except.ok pg2, Except.error ⟨"boom"⟩]).stack_events =
      [raw_cc, raw_failed] ∧
    (get_cfn_stack_events "stk" "us-east-1"
      [Except.ok pg1, Except.ok pg2, Except.error ⟨"boom"⟩]).requests = 2 := by
  have h := claim_C2 "stk" "us-east-1" [pg1] pg2 [Except.error ⟨"boom"⟩]
    (by decide) (by decide)
  simpa [pg1, pg2] using h

/-- Claim C3: when a `describe_stack_events` call raises a `ClientError` at
any point (first page or a later one), `get_cfn_stack_events` returns (it is
a total function into `FetchResult`, so no error propagates) exactly the
events of the pages that succeeded — the empty list when `ps = []`, i.e. the
first call failed — and logs the failure at error severity with the stack
name and region embedded in the message. -/
theorem claim_C3 (n r : String) (ps : List DescribeStackEventsResponse) (e : ClientError)
    (extra : List (Except ClientError DescribeStackEventsResponse))
    (hps : ∀ p ∈ ps, p.NextToken ≠ none) :
    get_cfn_stack_events n r (ps.map Except.ok ++ (Except.error e :: extra)) =
      { stack_events := (ps.map DescribeStackEventsResponse.StackEvents).flatten
        requests := ps.length + 1
        logs := [fetch_error_log n r e] } ∧
    (fetch_error_log n r e).level = LogLevel.error :=
  ⟨get_cfn_stack_events_error n r e extra ps hps, rfl⟩

/-- Witness for C3 at a concrete input: one successful page then a
`ClientError` yields the first page's events, two requests and one
error-severity log line. -/
theorem claim_C3_witness :
    get_cfn_stack_events "stk" "us-east-1"
      [Except.ok pg1, Except.error ⟨"AccessDenied"⟩] =
      { stack_events := [raw_cc], requests := 2,
        logs := [fetch_error_log "stk" "us-east-1" ⟨"AccessDenied"⟩] } := by
  have h := claim_C3 "stk" "us-east-1" [pg1] ⟨"AccessDenied"⟩ [] (by decide)
  simpa [pg1] using h.1

/-- Claim C4: for a stack whose normalized event list is empty, `write_logs`
appends nothing to the file and records no recursive call — only the
"collecting" info line and an error-severity "no event logs found" line are
logged — and the processing of any other stack from the resulting state
appends exactly the blocks it would have appended without this stack. -/
theorem claim_C4 (env : Env) (fuel : Nat) (sid lp : String) (st : WState)
    (h : get_cfnlogs env (env.parse_stack_info sid).stack_name
      (env.parse_stack_info sid).region = []) :
    write_logs env (fuel + 1) sid lp st =
      { file := st.file
        console := st.console ++
          [collecting_log (env.parse_stack_info sid).stack_name, no_events_log]
        calls := st.calls } ∧
    no_events_log.level = LogLevel.error ∧
    (∀ (fuel2 : Nat) (sid2 lp2 : String),
      (write_logs env fuel2 sid2 lp2 (write_logs env (fuel + 1) sid lp st)).file =
        (write_logs env fuel2 sid2 lp2 st).file) := by
  have h1 : write_logs env (fuel + 1) sid lp st =
      { file := st.file
        console := st.console ++
          [collecting_log (env.parse_stack_info sid).stack_name, no_events_log]
        calls := st.calls } := by
    rw [write_logs_succ_empty env fuel sid lp st h]
    simp [push_console]
  refine ⟨h1, rfl, ?_⟩
  intro fuel2 sid2 lp2
  rw [write_logs_file, write_logs_file, write_logs_file]
  simp only [dfs_report_blocks, h]
  simp

/-- Witness for C4 at a concrete input: the `empty` stack has no events, so
the state keeps an empty file and empty call trace and gains exactly the two
console lines. -/
theorem claim_C4_witness :
    write_logs sampleEnv 1 "empty" "/p.txt" ⟨[], [], []⟩ =
      { file := [], console := [collecting_log "empty", no_events_log], calls := [] } := by
  have h := claim_C4 sampleEnv 0 "empty" "/p.txt" ⟨[], [], []⟩ (by decide)
  simpa [sampleEnv] using h.1

/-- Claim C5: after writing its own report block, `write_logs` performs
exactly one recursive call per resource whose `resourceType` is
"AWS::CloudFormation::Stack" — on that resource's `physicalId` with the same
log path, in resource-list order — and none for any other resource.  Depth 1
isolates the invocation's own call sites: the fuel-0 callees run nothing, so
the recorded calls are precisely the immediate ones. -/
theorem claim_C5 (env : Env) (sid lp : String) (st : WState)
    (first : EventDetails) (rest : List EventDetails)
    (h : get_cfnlogs env (env.parse_stack_info sid).stack_name
      (env.parse_stack_info sid).region = first :: rest) :
    (write_logs env 1 sid lp st).calls =
      st.calls ++
        ((env.get_resources (env.parse_stack_info sid).stack_name
            (env.parse_stack_info sid).region).filter
          (fun r2 => r2.resourceType = "AWS::CloudFormation::Stack")).map
          (fun r2 => (r2.physicalId, lp)) :=
  write_logs_one_calls env sid lp st first rest h

/-- Witness for C5 at a concrete input: `parent` owns two nested-stack
resources and one bucket, so exactly two recursive calls are recorded, both
with the parent's log path. -/
theorem claim_C5_witness :
    (write_logs sampleEnv 1 "parent" "/p.txt" ⟨[], [], []⟩).calls =
      [("child", "/p.txt"), ("child2", "/p.txt")] := by
  have h := claim_C5 sampleEnv "parent" "/p.txt" ⟨[], [], []⟩
    (event_details raw_cc) [] (by decide)
  rw [h]
  decide

/-- Claim C6: normalization copies a present status reason unchanged,
replaces an absent one by the empty string, and never produces an event
whose status-reason key is missing. -/
theorem claim_C6 :
    (∀ e : RawEvent, e.ResourceStatusReason = none →
      (event_details e).ResourceStatusReason = some "") ∧
    (∀ (e : RawEvent) (s : String), e.ResourceStatusReason = some s →
      (event_details e).ResourceStatusReason = some s) ∧
    (∀ (l : List RawEvent) (d : EventDetails), d ∈ normalize_events l →
      d.ResourceStatusReason ≠ none) := by
  refine ⟨?_, ?_, normalize_reason_present⟩
  · intro e he; simp [event_details, he]
  · intro e s he; simp [event_details, he]

/-- Witness for C6 at concrete inputs: a reason-less record is normalized to
the empty-string reason, a record with a reason keeps it unchanged. -/
theorem claim_C6_witness :
    (event_details raw_noreason).ResourceStatusReason = some "" ∧
    (event_details raw_failed).ResourceStatusReason = some "Resource X failed" :=
  ⟨claim_C6.1 raw_noreason rfl, claim_C6.2.1 raw_failed "Resource X failed" rfl⟩

/-- Claim C7: `write_logs` appends to the file exactly the report blocks of
`dfs_report_blocks` — one contiguous block per processed stack with events,
in depth-first discovery order, each parent's block preceding all of its
descendants' blocks. -/
theorem claim_C7 (env : Env) (fuel : Nat) (sid lp : String) (st : WState) :
    (write_logs env fuel sid lp st).file = st.file ++ dfs_report_blocks env fuel sid :=
  write_logs_file env fuel sid lp st

/-- Claim C8: every event produced by normalization carries the
status-reason key, so the "Unknown" branch of `write_logs` is unreachable
for inputs coming from `get_cfnlogs`: when the first event's status is not
"CREATE_COMPLETE" and the raw record had no status reason, the block's
outcome reason is the empty string, never "Unknown". -/
theorem claim_C8 :
    (∀ (l : List RawEvent) (d : EventDetails), d ∈ normalize_events l →
      d.ResourceStatusReason ≠ none) ∧
    (∀ (env : Env) (fuel : Nat) (sid lp : String) (st : WState)
      (e : RawEvent) (raws : List RawEvent),
      env.raw_events (env.parse_stack_info sid).stack_name
        (env.parse_stack_info sid).region = e :: raws →
      e.ResourceStatus ≠ "CREATE_COMPLETE" →
      e.ResourceStatusReason = none →
      ∃ tail, (write_logs env (fuel + 1) sid lp st).file =
        st.file ++ { region := (env.parse_stack_info sid).region
                     stackname := (env.parse_stack_info sid).stack_name
                     reason := ""
                     events := normalize_events (e :: raws) } :: tail) := by
  refine ⟨normalize_reason_present, ?_⟩
  intro env fuel sid lp st e raws hraw hncc hnone
  have hlogs : get_cfnlogs env (env.parse_stack_info sid).stack_name
      (env.parse_stack_info sid).region =
      event_details e :: normalize_events raws := by
    simp [get_cfnlogs, hraw, normalize_events]
  have hreason : outcome_reason (event_details e) = "" := by
    simp [outcome_reason, event_details, hncc, hnone]
  refine ⟨((env.get_resources (env.parse_stack_info sid).stack_name
      (env.parse_stack_info sid).region).filter
      (fun r => r.resourceType = "AWS::CloudFormation::Stack")).flatMap
      (fun r => dfs_report_blocks env fuel r.physicalId), ?_⟩
  rw [write_logs_file]
  simp only [dfs_report_blocks, hlogs, hreason]
  simp [normalize_events]

/-- Witness for C8 at a concrete input: the `noreason` stack failed without a
status reason, and its block's outcome reason is the empty string. -/
theorem claim_C8_witness :
    ∃ tail, (write_logs sampleEnv 1 "noreason" "/p.txt" ⟨[], [], []⟩).file =
      { region := "us-east-1", stackname := "noreason", reason := "",
        events := [event_details raw_noreason] } :: tail := by
  have h := claim_C8.2 sampleEnv 0 "noreason" "/p.txt" ⟨[], [], []⟩
    raw_noreason [] (by decide) (by decide) rfl
  obtain ⟨tail, htail⟩ := h
  refine ⟨tail, ?_⟩
  simpa [sampleEnv, normalize_events] using htail

/-- Claim C9: `createcfnlogs` processes the `(test, stack)` pairs strictly
sequentially in input order, and for each one resolves the stack name and
region via the parser and invokes `write_logs` on the stack id with the path
"logpath/stackname-region-cfnlogs.txt"; at depth 0 the recorded invocations
are exactly one per pair, in order, with those paths. -/
theorem claim_C9 (env : Env) (fuel : Nat) (testdata_list : List TestData)
    (logpath : String) (st : WState) :
    createcfnlogs env fuel testdata_list logpath st =
      (testdata_list.flatMap TestData.test_stacks).foldl
        (fun s stack =>
          write_logs env fuel stack.StackId
            (test_logpath logpath (env.parse_stack_info stack.StackId).stack_name
              (env.parse_stack_info stack.StackId).region)
            (push_call s stack.StackId
              (test_logpath logpath (env.parse_stack_info stack.StackId).stack_name
                (env.parse_stack_info stack.StackId).region)))
        (push_console st
          { level := LogLevel.info, tag := none,
            msg := "Collecting CloudFormation Logs" }) ∧
    (createcfnlogs env 0 testdata_list logpath st).calls =
      st.calls ++ (testdata_list.flatMap TestData.test_stacks).map
        (fun stack => (stack.StackId,
          test_logpath logpath (env.parse_stack_info stack.StackId).stack_name
            (env.parse_stack_info stack.StackId).region)) := by
  refine ⟨createcfnlogs_eq env fuel testdata_list logpath st, ?_⟩
  rw [createcfnlogs_eq]
  have hfun : (fun (s : WState) (stack : StackRecord) =>
      write_logs env 0 stack.StackId
        (test_logpath logpath (env.parse_stack_info stack.StackId).stack_name
          (env.parse_stack_info stack.StackId).region)
        (push_call s stack.StackId
          (test_logpath logpath (env.parse_stack_info stack.StackId).stack_name
            (env.parse_stack_info stack.StackId).region))) =
      (fun (s : WState) (stack : StackRecord) =>
        push_call s stack.StackId
          (test_logpath logpath (env.parse_stack_info stack.StackId).stack_name
            (env.parse_stack_info stack.StackId).region)) := by
    funext s stack
    rw [write_logs_zero]
  rw [hfun, foldl_push_call_calls]
  simp [push_console]

/-- Claim C10: normalization has no failure modes — it is the total per-event
projection `event_details` mapped over the input, so it returns a list of the
same length for every input. -/
theorem claim_C10 (l : List RawEvent) :
    normalize_events l = l.map event_details ∧
    (normalize_events l).length = l.length := by
  refine ⟨normalize_events_map l, ?_⟩
  rw [normalize_events_map]
  simp
